import Mathlib

/-!
Verification of the Echo-Sight dashboard telemetry core
(`src/frontend/src/pages/dashboard-page.tsx`, with the legacy variant kept as
an unnamed source file that differs only in its log capacity of 60).

The TypeScript core is shallowly embedded: JavaScript numbers are modelled as
rationals together with NaN, the React state updated by the handlers is an
explicit record, asynchronous handlers are split at their await points into a
start phase and a settle phase parametrised by the outcome of the awaited
request, and nondeterministic inputs (Date.now, toLocaleTimeString) are passed
in as explicit parameters.
-/

namespace EchoSight

/-- JavaScript number value: a finite number (modelled as a rational) or NaN.
A payload field that does not coerce to a number via `Number(...)` is
represented by `nan`. -/
inductive JsNum where
  | fin (q : ℚ)
  | nan
deriving DecidableEq

/-- Math.min: NaN if either argument is NaN.  Written with an explicit test
(definitionally equal to `min` on the rationals) so that it evaluates by
kernel reduction. -/
def jsMin : JsNum → JsNum → JsNum
  | JsNum.fin a, JsNum.fin b => JsNum.fin (if a ≤ b then a else b)
  | _, _ => JsNum.nan

/-- Math.max: NaN if either argument is NaN. -/
def jsMax : JsNum → JsNum → JsNum
  | JsNum.fin a, JsNum.fin b => JsNum.fin (if a ≤ b then b else a)
  | _, _ => JsNum.nan

/-- clamp(value, min, max) from the source:
`Math.max(min, Math.min(max, value))`.  The bounds used by the program are
always number literals, so they are plain rationals here. -/
def clamp (value : JsNum) (lo hi : ℚ) : JsNum :=
  jsMax (JsNum.fin lo) (jsMin (JsNum.fin hi) value)

/-- Math.round: nearest integer, halves toward positive infinity; NaN
propagates. -/
def jsRound : JsNum → JsNum
  | JsNum.fin q => JsNum.fin ((⌊q + 1/2⌋ : ℤ) : ℚ)
  | JsNum.nan => JsNum.nan

/-- Rendering of a number into an event-log string (only ever applied to
integral values by the program). -/
def jsNumStr : JsNum → String
  | JsNum.fin q => if q.den = 1 then toString q.num else toString q
  | JsNum.nan => "NaN"

/-- Characters stripped by JavaScript's String.prototype.trim (the common
ASCII whitespace). -/
def isJsWhitespace (c : Char) : Bool :=
  c = ' ' || c = '\t' || c = '\n' || c = '\r' || c = '\x0b' || c = '\x0c'

/-- Trim of a character list: drop whitespace from the front, then from the
back. -/
def trimChars (l : List Char) : List Char :=
  (((l.dropWhile isJsWhitespace).reverse.dropWhile isJsWhitespace)).reverse

/-- JavaScript `s.trim()`. -/
def jsTrim (s : String) : String :=
  String.mk (trimChars s.data)

/-- One raw element of the `detections` array of a wire payload:
`{ label?: string; box?: number[] }`.  `label := none` models an absent or
nullish label; `box := none` models an absent box (the `!raw` test). -/
structure RawDetection where
  label : Option String
  box : Option (List JsNum)
deriving DecidableEq

/-- A validated detection: lowercased label and a normalized box
`(ymin, xmin, ymax, xmax)` on the 0-1000 grid. -/
structure Detection where
  label : String
  box : ℚ × ℚ × ℚ × ℚ
deriving DecidableEq

/-- normalizeBox from the source: reject unless the raw box is present with
exactly 4 entries; round and clamp each entry to [0, 1000]; reject if any
entry is NaN after that (clamp propagates NaN) or if the box is degenerate
(`ymax <= ymin || xmax <= xmin`). -/
def normalizeBox (raw : Option (List JsNum)) : Option (ℚ × ℚ × ℚ × ℚ) :=
  match raw with
  | some [v0, v1, v2, v3] =>
    match clamp (jsRound v0) 0 1000, clamp (jsRound v1) 0 1000,
          clamp (jsRound v2) 0 1000, clamp (jsRound v3) 0 1000 with
    | JsNum.fin ymin, JsNum.fin xmin, JsNum.fin ymax, JsNum.fin xmax =>
      if ymax ≤ ymin ∨ xmax ≤ xmin then none
      else some (ymin, xmin, ymax, xmax)
    | _, _, _, _ => none
  | _ => none

/-- `(det.label || 'obstacle').toLowerCase()`: an absent or empty label falls
back to "obstacle" (empty strings are falsy). -/
def detectionLabel (label : Option String) : String :=
  (match label with
   | some s => if s = "" then "obstacle" else s
   | none => "obstacle").toLower

/-- The per-element body of the `map` over raw detections in applyPayload:
normalize the box, or drop the element. -/
def normalizeDetection (det : RawDetection) : Option Detection :=
  match normalizeBox det.box with
  | some box => some { label := detectionLabel det.label, box := box }
  | none => none

/-- The wire payload `VisionPayload`.
`voice_prompt := none` models an absent/nullish prompt (the `?.` chain),
`detections := none` models a value that is not an array
(`Array.isArray` fails), `haptic_intensity := none` models a nullish value
(the `?? 0` default). -/
structure VisionPayload where
  voice_prompt : Option String
  detections : Option (List RawDetection)
  haptic_intensity : Option JsNum
  ts : Option ℚ
deriving DecidableEq

/-- One entry of the event log.  `id` is `Date.now() + random` and `time` is a
wall-clock display string; both come from the environment and are passed in
explicitly. -/
structure LogEntry where
  id : ℤ
  time : String
  text : String
deriving DecidableEq

/-- Environment-supplied metadata for a freshly created log entry. -/
structure LogMeta where
  id : ℤ
  time : String
deriving DecidableEq

/-- MAX_LOG_ENTRIES of the current dashboard page. -/
def MAX_LOG_ENTRIES : ℕ := 80

/-- MAX_LOG_ENTRIES of the legacy dashboard page. -/
def MAX_LOG_ENTRIES_LEGACY : ℕ := 60

/-- addLog at an arbitrary capacity: prepend the new entry and truncate to
the capacity (`[entry, ...current].slice(0, MAX_LOG_ENTRIES)`). -/
def addLogCap (cap : ℕ) (current : List LogEntry) (meta : LogMeta)
    (text : String) : List LogEntry :=
  ({ id := meta.id, time := meta.time, text := text } :: current).take cap

/-- addLog of the current dashboard page (capacity 80). -/
def addLog (current : List LogEntry) (meta : LogMeta) (text : String) :
    List LogEntry :=
  addLogCap MAX_LOG_ENTRIES current meta text

/-- The React state of the dashboard that the telemetry core mutates. -/
structure DashState where
  connected : Bool
  voicePrompt : String
  hapticIntensity : JsNum
  detections : List Detection
  eventLog : List LogEntry
  actionBusy : Option String
deriving DecidableEq

/-- The initial React state (`useState` initialisers). -/
def initialState : DashState :=
  { connected := false
    voicePrompt := "Waiting for analysis"
    hapticIntensity := JsNum.fin 0
    detections := []
    eventLog := []
    actionBusy := none }

/-- `payload.voice_prompt?.trim() || 'Path is clear'`. -/
def nextVoiceOf (vp : Option String) : String :=
  match vp with
  | some s => if jsTrim s = "" then "Path is clear" else jsTrim s
  | none => "Path is clear"

/-- `clamp(Math.round(Number(payload.haptic_intensity ?? 0)), 0, 255)`. -/
def nextHapticOf (h : Option JsNum) : JsNum :=
  clamp (jsRound (h.getD (JsNum.fin 0))) 0 255

/-- The detections computed by applyPayload: a non-array input is treated as
the empty list, then each element is normalized independently and the failed
ones are dropped (`.map(...).filter(...)`). -/
def nextDetectionsOf (dets : Option (List RawDetection)) : List Detection :=
  (dets.getD []).filterMap normalizeDetection

/-- applyPayload from the source: compute the next prompt, intensity and
detections, store them, and append one summary event
`"<source>: <prompt> | haptic=<intensity>"`. -/
def applyPayload (meta : LogMeta) (st : DashState) (payload : VisionPayload)
    (source : String) : DashState :=
  let nextVoice := nextVoiceOf payload.voice_prompt
  let nextHaptic := nextHapticOf payload.haptic_intensity
  let nextDetections := nextDetectionsOf payload.detections
  { st with
    voicePrompt := nextVoice
    hapticIntensity := nextHaptic
    detections := nextDetections
    eventLog := addLog st.eventLog meta
      (source ++ ": " ++ nextVoice ++ " | haptic=" ++ jsNumStr nextHaptic) }

/-- An inbound stream message: either data that JSON-decoded to a payload, or
data on which `JSON.parse` threw. -/
inductive WsMessage where
  | valid (payload : VisionPayload)
  | malformed
deriving DecidableEq

/-- socket.onmessage: decode and apply, or log one "Invalid websocket
payload" event and leave the rest of the state alone.  The handler is a total
function: the catch block guarantees no exception escapes. -/
def onMessage (meta : LogMeta) (st : DashState) (m : WsMessage) : DashState :=
  match m with
  | WsMessage.valid payload => applyPayload meta st payload "vision stream"
  | WsMessage.malformed =>
    { st with eventLog := addLog st.eventLog meta "Invalid websocket payload" }

/-- A value thrown inside a handler's try block: an Error object carrying a
message, or any other thrown value. -/
inductive FetchError where
  | errorObj (message : String)
  | other
deriving DecidableEq

/-- `error instanceof Error ? error.message : fallback`. -/
def errText (fallback : String) : FetchError → String
  | FetchError.errorObj message => message
  | FetchError.other => fallback

/-- Outcome of the awaited analyze round trip, as observed by the handler
after its await points: a decoded payload on `response.ok`, a non-ok status
(the handler then throws `Analyze failed (status)` at itself), or a thrown
transport/decode error. -/
inductive AnalyzeOutcome where
  | ok (payload : VisionPayload)
  | notOk (status : ℕ)
  | thrown (e : FetchError)
deriving DecidableEq

/-- Outcome of the haptic round trip: decoded `{success?, message?}` body on
`response.ok` (`message := none` models a nullish or absent field and the
falsy test also sends the empty string to the fallback), a non-ok status, or
a thrown error. -/
inductive HapticOutcome where
  | ok (message : Option String)
  | notOk (status : ℕ)
  | thrown (e : FetchError)
deriving DecidableEq

/-- Outcome of the TTS round trip: status 204 (no audio), successful playback
start, a non-ok status, or a thrown error (including a failed `audio.play()`).
-/
inductive SpeakOutcome where
  | noContent
  | played
  | notOk (status : ℕ)
  | thrown (e : FetchError)
deriving DecidableEq

/-- The synchronous prefix of handleAnalyzeNow, up to its first await: set
the busy token (unconditionally — the handler itself never checks it) and
issue the fetch.  The boolean records that a backend request was issued. -/
def handleAnalyzeNowStart (st : DashState) : DashState × Bool :=
  ({ st with actionBusy := some "analyze" }, true)

/-- The rest of handleAnalyzeNow: apply the payload on success, log the
failure otherwise, and clear the busy token in the finally block. -/
def handleAnalyzeNowSettle (meta : LogMeta) (st : DashState)
    (outcome : AnalyzeOutcome) : DashState :=
  let st2 :=
    match outcome with
    | AnalyzeOutcome.ok payload => applyPayload meta st payload "manual analyze"
    | AnalyzeOutcome.notOk status =>
      { st with
        eventLog := addLog st.eventLog meta ("Analyze failed (" ++ toString status ++ ")") }
    | AnalyzeOutcome.thrown e =>
      { st with
        eventLog := addLog st.eventLog meta (errText "Analyze request failed" e) }
  { st2 with actionBusy := none }

/-- A whole run of handleAnalyzeNow for a given outcome of its awaits. -/
def handleAnalyzeNow (meta : LogMeta) (st : DashState)
    (outcome : AnalyzeOutcome) : DashState × Bool :=
  let start := handleAnalyzeNowStart st
  (handleAnalyzeNowSettle meta start.1 outcome, start.2)

/-- The synchronous prefix of handleHapticPulse: clamp the requested
intensity, set the busy token to `haptic-<clamped>` (again with no busy
check), and issue the fetch. -/
def handleHapticPulseStart (st : DashState) (intensity : JsNum) :
    DashState × Bool :=
  let clamped := clamp intensity 0 255
  ({ st with actionBusy := some ("haptic-" ++ jsNumStr clamped) }, true)

/-- The rest of handleHapticPulse: on success store the locally clamped
intensity and log the response message (or the local fallback text); on
failure log; always clear the busy token. -/
def handleHapticPulseSettle (meta : LogMeta) (st : DashState)
    (intensity : JsNum) (outcome : HapticOutcome) : DashState :=
  let clamped := clamp intensity 0 255
  let st2 :=
    match outcome with
    | HapticOutcome.ok message =>
      { st with
        hapticIntensity := clamped
        eventLog := addLog st.eventLog meta
          (match message with
           | some m => if m = "" then "Haptic pulse " ++ jsNumStr clamped else m
           | none => "Haptic pulse " ++ jsNumStr clamped) }
    | HapticOutcome.notOk status =>
      { st with
        eventLog := addLog st.eventLog meta ("Haptic send failed (" ++ toString status ++ ")") }
    | HapticOutcome.thrown e =>
      { st with
        eventLog := addLog st.eventLog meta (errText "Haptic request failed" e) }
  { st2 with actionBusy := none }

/-- A whole run of handleHapticPulse for a given outcome. -/
def handleHapticPulse (meta : LogMeta) (st : DashState) (intensity : JsNum)
    (outcome : HapticOutcome) : DashState × Bool :=
  let start := handleHapticPulseStart st intensity
  (handleHapticPulseSettle meta start.1 intensity outcome, start.2)

/-- The settle phase of handleSpeakPrompt (only reached when the trimmed
prompt was non-empty): log the outcome and clear the busy token; the early
`return` on status 204 still runs the finally block. -/
def handleSpeakPromptSettle (meta : LogMeta) (st : DashState)
    (outcome : SpeakOutcome) : DashState :=
  let st2 :=
    match outcome with
    | SpeakOutcome.noContent =>
      { st with
        eventLog := addLog st.eventLog meta
          "TTS returned no audio (check ElevenLabs key)" }
    | SpeakOutcome.played =>
      { st with eventLog := addLog st.eventLog meta "TTS playback started" }
    | SpeakOutcome.notOk status =>
      { st with
        eventLog := addLog st.eventLog meta ("TTS failed (" ++ toString status ++ ")") }
    | SpeakOutcome.thrown e =>
      { st with
        eventLog := addLog st.eventLog meta (errText "TTS request failed" e) }
  { st2 with actionBusy := none }

/-- A whole run of handleSpeakPrompt: `if (!text) return` makes a run with an
empty trimmed prompt a pure no-op (no request, no lock); otherwise the busy
token is set, the request issued and the outcome settled. -/
def handleSpeakPrompt (meta : LogMeta) (st : DashState)
    (outcome : SpeakOutcome) : DashState × Bool :=
  if jsTrim st.voicePrompt = "" then (st, false)
  else
    (handleSpeakPromptSettle meta { st with actionBusy := some "speak" }
      outcome, true)

/-- The Analyze Now button: its onClick fires only while the button is not
disabled, and it is disabled whenever `actionBusy !== null`. -/
def clickAnalyzeNow (meta : LogMeta) (st : DashState)
    (outcome : AnalyzeOutcome) : DashState × Bool :=
  if st.actionBusy = none then handleAnalyzeNow meta st outcome
  else (st, false)

/-- A haptic pulse button (`disabled={actionBusy !== null}`). -/
def clickHapticPulse (meta : LogMeta) (st : DashState) (intensity : JsNum)
    (outcome : HapticOutcome) : DashState × Bool :=
  if st.actionBusy = none then handleHapticPulse meta st intensity outcome
  else (st, false)

/-- The Speak Prompt button (`disabled={actionBusy !== null}`). -/
def clickSpeakPrompt (meta : LogMeta) (st : DashState)
    (outcome : SpeakOutcome) : DashState × Bool :=
  if st.actionBusy = none then handleSpeakPrompt meta st outcome
  else (st, false)

/-- The variables of the websocket effect (`teardown`, the pending timers)
together with the `connected` flag and the event log it touches.
`reconnectTimer = some d` means one reconnect callback is pending with delay
`d` milliseconds. -/
structure SessionState where
  teardown : Bool
  connected : Bool
  reconnectTimer : Option ℕ
  keepaliveTimer : Bool
  log : List LogEntry
deriving DecidableEq

/-- socket.onclose: mark disconnected, stop the keepalive, and — only when
teardown has not been requested — log and schedule exactly one reconnect
after 1200 ms. -/
def onClose (meta : LogMeta) (s : SessionState) : SessionState :=
  let s1 := { s with connected := false, keepaliveTimer := false }
  if s.teardown then s1
  else
    { s1 with
      log := addLog s1.log meta "WebSocket disconnected. Reconnecting..."
      reconnectTimer := some 1200 }

/-- socket.onopen: mark connected, log, start the keepalive interval. -/
def onOpen (meta : LogMeta) (s : SessionState) : SessionState :=
  { s with
    connected := true
    keepaliveTimer := true
    log := addLog s.log meta "WebSocket connected" }

/-- connect(): bail out if teardown was requested, otherwise open a new
transport connection.  The boolean records whether a connection attempt was
made. -/
def connectStep (s : SessionState) : SessionState × Bool :=
  if s.teardown then (s, false)
  else ({ s with reconnectTimer := none }, true)

/-- The effect cleanup: set the teardown flag, cancel both timers (the
transport close it also forces arrives later as an ordinary close event). -/
def teardownStep (s : SessionState) : SessionState :=
  { s with teardown := true, reconnectTimer := none, keepaliveTimer := false }

/-- The externally observable events driving the session state machine. -/
inductive SessionEvent where
  | closeEv (meta : LogMeta)
  | openEv (meta : LogMeta)
  | reconnectFire
  | teardownReq
deriving DecidableEq

/-- One step of the session machine; the natural number counts the transport
connection attempts made during the step. -/
def sessionStep (s : SessionState) (e : SessionEvent) : SessionState × ℕ :=
  match e with
  | SessionEvent.closeEv meta => (onClose meta s, 0)
  | SessionEvent.openEv meta => (onOpen meta s, 0)
  | SessionEvent.reconnectFire =>
    match s.reconnectTimer with
    | some _ =>
      let c := connectStep { s with reconnectTimer := none }
      (c.1, if c.2 then 1 else 0)
    | none => (s, 0)
  | SessionEvent.teardownReq => (teardownStep s, 0)

/-- Run the session machine over a list of events, accumulating the total
number of connection attempts. -/
def sessionRun (s : SessionState) : List SessionEvent → SessionState × ℕ
  | [] => (s, 0)
  | e :: es =>
    let step := sessionStep s e
    let rest := sessionRun step.1 es
    (rest.1, step.2 + rest.2)

/-- The dashboard states reachable from the initial state under the system's
own updates: stream messages (valid or malformed), websocket connect and
disconnect notifications, and whole runs of the three action handlers. -/
inductive Reachable : DashState → Prop where
  | init : Reachable initialState
  | msg (meta : LogMeta) (m : WsMessage) {st : DashState} :
      Reachable st → Reachable (onMessage meta st m)
  | wsOpen (meta : LogMeta) {st : DashState} : Reachable st →
      Reachable { st with connected := true,
                          eventLog := addLog st.eventLog meta "WebSocket connected" }
  | wsClose (meta : LogMeta) {st : DashState} : Reachable st →
      Reachable { st with connected := false,
                          eventLog := addLog st.eventLog meta
                            "WebSocket disconnected. Reconnecting..." }
  | analyze (meta : LogMeta) (outcome : AnalyzeOutcome) {st : DashState} :
      Reachable st → Reachable (handleAnalyzeNow meta st outcome).1
  | haptic (meta : LogMeta) (intensity : JsNum) (outcome : HapticOutcome)
      {st : DashState} :
      Reachable st → Reachable (handleHapticPulse meta st intensity outcome).1
  | speak (meta : LogMeta) (outcome : SpeakOutcome) {st : DashState} :
      Reachable st → Reachable (handleSpeakPrompt meta st outcome).1

/-! ### Basic lemmas about the JavaScript number operations -/

theorem jsMin_fin (a b : ℚ) :
    jsMin (JsNum.fin a) (JsNum.fin b) = JsNum.fin (min a b) := by
  simp [jsMin, min_def]

theorem jsMax_fin (a b : ℚ) :
    jsMax (JsNum.fin a) (JsNum.fin b) = JsNum.fin (max a b) := by
  simp [jsMax, max_def]

theorem clamp_fin (q lo hi : ℚ) :
    clamp (JsNum.fin q) lo hi = JsNum.fin (max lo (min hi q)) := by
  simp [clamp, jsMin_fin, jsMax_fin]

theorem clamp_nan (lo hi : ℚ) : clamp JsNum.nan lo hi = JsNum.nan := rfl

theorem clamp_fin_mem {q lo hi r : ℚ} (hlohi : lo ≤ hi)
    (h : clamp (JsNum.fin q) lo hi = JsNum.fin r) : lo ≤ r ∧ r ≤ hi := by
  rw [clamp_fin] at h
  cases h
  exact ⟨le_max_left _ _, max_le hlohi (min_le_left _ _)⟩

theorem clamp_eq_nan_iff {v : JsNum} {lo hi : ℚ} :
    clamp v lo hi = JsNum.nan ↔ v = JsNum.nan := by
  cases v with
  | fin q => simp [clamp_fin]
  | nan => simp [clamp_nan]

theorem jsRound_eq_nan_iff {v : JsNum} : jsRound v = JsNum.nan ↔ v = JsNum.nan := by
  cases v <;> simp [jsRound]

/-- The value computed for a finite haptic input: an integer clamp of the
rounded value. -/
theorem nextHapticOf_fin (q : ℚ) :
    nextHapticOf (some (JsNum.fin q)) =
      JsNum.fin ((max 0 (min 255 ⌊q + 1/2⌋) : ℤ) : ℚ) := by
  simp only [nextHapticOf, Option.getD, jsRound, clamp_fin]
  push_cast
  rfl

/-! ### Claim C5: a malformed stream message leaves the snapshot unchanged
and appends exactly one event -/

/-- Claim C5: for every stream message that fails to decode as JSON, the
handler leaves the snapshot fields (voicePrompt, hapticIntensity,
detections) unchanged and appends exactly one "Invalid websocket payload"
event.  The handler is a total function of the message, so no exception
escapes it. -/
theorem claim_C5 (meta : LogMeta) (st : DashState) :
    (onMessage meta st WsMessage.malformed).voicePrompt = st.voicePrompt ∧
    (onMessage meta st WsMessage.malformed).hapticIntensity = st.hapticIntensity ∧
    (onMessage meta st WsMessage.malformed).detections = st.detections ∧
    (onMessage meta st WsMessage.malformed).eventLog =
      addLog st.eventLog meta "Invalid websocket payload" := by
  refine ⟨rfl, rfl, rfl, rfl⟩

/-! ### Claim C10: a successful haptic pulse stores the locally clamped
intensity and nothing else of the snapshot -/

/-- Claim C10: on a successful haptic pulse the snapshot's hapticIntensity is
set to the locally clamped requested intensity, whatever message the response
body carried, and voicePrompt and detections are unchanged. -/
theorem claim_C10 (meta : LogMeta) (st : DashState) (intensity : JsNum)
    (message : Option String) :
    (handleHapticPulse meta st intensity (HapticOutcome.ok message)).1.hapticIntensity =
      clamp intensity 0 255 ∧
    (handleHapticPulse meta st intensity (HapticOutcome.ok message)).1.voicePrompt =
      st.voicePrompt ∧
    (handleHapticPulse meta st intensity (HapticOutcome.ok message)).1.detections =
      st.detections := by
  refine ⟨rfl, rfl, rfl⟩

/-! ### Claim C8: every lock-taking action path clears the busy token -/

/-- Claim C8: each action that takes the lock clears the busy token on every
completion path — success, non-success response, or thrown exception
(the speak action takes the lock exactly when the trimmed prompt is
non-empty). -/
theorem claim_C8 (meta : LogMeta) (st : DashState) (ao : AnalyzeOutcome)
    (intensity : JsNum) (ho : HapticOutcome) (so : SpeakOutcome)
    (h : jsTrim st.voicePrompt ≠ "") :
    (handleAnalyzeNow meta st ao).1.actionBusy = none ∧
    (handleHapticPulse meta st intensity ho).1.actionBusy = none ∧
    (handleSpeakPrompt meta st so).1.actionBusy = none := by
  refine ⟨?_, ?_, ?_⟩
  · cases ao <;> rfl
  · cases ho <;> rfl
  · rw [handleSpeakPrompt, if_neg h]
    cases so <;> rfl

/-- Concrete instantiation of claim C8 at the initial state. -/
theorem claim_C8_witness :
    jsTrim initialState.voicePrompt ≠ "" ∧
    (handleAnalyzeNow ⟨0, ""⟩ initialState (AnalyzeOutcome.notOk 500)).1.actionBusy = none ∧
    (handleHapticPulse ⟨0, ""⟩ initialState (JsNum.fin 120)
      (HapticOutcome.thrown FetchError.other)).1.actionBusy = none ∧
    (handleSpeakPrompt ⟨0, ""⟩ initialState SpeakOutcome.noContent).1.actionBusy = none :=
  ⟨by decide,
   claim_C8 ⟨0, ""⟩ initialState (AnalyzeOutcome.notOk 500) (JsNum.fin 120)
     (HapticOutcome.thrown FetchError.other) SpeakOutcome.noContent (by decide)⟩

/-! ### Claim C1: the single-flight gate -/

/-- A state in which an analyze action is already in flight. -/
def busyState : DashState := { initialState with actionBusy := some "analyze" }

/-- Counterexample to claim C1 as stated: with the action-busy token non-null
(an analyze in flight), invoking the haptic handler is not rejected at the
core — the synchronous prefix of the handler still issues the backend request
and overwrites the existing token. -/
theorem claim_C1_counterexample :
    busyState.actionBusy = some "analyze" ∧
    (handleHapticPulseStart busyState (JsNum.fin 120)).2 = true ∧
    (handleHapticPulseStart busyState (JsNum.fin 120)).1.actionBusy =
      some "haptic-120" ∧
    (handleHapticPulseStart busyState (JsNum.fin 120)).1.actionBusy ≠
      busyState.actionBusy := by
  have hclamp : clamp (JsNum.fin 120) 0 255 = JsNum.fin 120 := by
    rw [clamp_fin]; norm_num
  have hbusy : (handleHapticPulseStart busyState (JsNum.fin 120)).1.actionBusy =
      some "haptic-120" := by
    simp only [handleHapticPulseStart, hclamp]
    rfl
  exact ⟨rfl, rfl, hbusy, by rw [hbusy]; decide⟩

/-- Claim C1 amended: the handlers themselves never check the busy token; the
single-flight rejection lives in the UI layer, where each action button is
disabled while `actionBusy` is non-null, so a click during an in-flight
action invokes nothing — no backend request is issued and the existing token
is untouched. -/
theorem claim_C1 (meta : LogMeta) (st : DashState) (ao : AnalyzeOutcome)
    (intensity : JsNum) (ho : HapticOutcome) (so : SpeakOutcome)
    (h : st.actionBusy ≠ none) :
    clickAnalyzeNow meta st ao = (st, false) ∧
    clickHapticPulse meta st intensity ho = (st, false) ∧
    clickSpeakPrompt meta st so = (st, false) := by
  refine ⟨?_, ?_, ?_⟩ <;>
    simp [clickAnalyzeNow, clickHapticPulse, clickSpeakPrompt, h]

/-- Concrete instantiation of the amended claim C1 at a busy state. -/
theorem claim_C1_witness :
    busyState.actionBusy ≠ none ∧
    clickAnalyzeNow ⟨0, ""⟩ busyState (AnalyzeOutcome.notOk 500) = (busyState, false) ∧
    clickHapticPulse ⟨0, ""⟩ busyState (JsNum.fin 220)
      (HapticOutcome.ok none) = (busyState, false) ∧
    clickSpeakPrompt ⟨0, ""⟩ busyState SpeakOutcome.played = (busyState, false) :=
  ⟨by decide,
   claim_C1 ⟨0, ""⟩ busyState (AnalyzeOutcome.notOk 500) (JsNum.fin 220)
     (HapticOutcome.ok none) SpeakOutcome.played (by decide)⟩

/-! ### Claim C2: normalization of the haptic intensity -/

/-- Counterexample to claim C2 as stated: a haptic_intensity field that does
not coerce to a number (NaN after `Number(...)`) does not map to 0 — the
clamp propagates NaN and the computed intensity is NaN, not an integer in
[0, 255]. -/
theorem claim_C2_counterexample :
    nextHapticOf (some JsNum.nan) = JsNum.nan ∧ JsNum.nan ≠ JsNum.fin 0 := by
  refine ⟨rfl, by decide⟩

/-- Claim C2 amended: an absent haptic_intensity maps to 0; a numeric one is
rounded and clamped to an integer in [0, 255], with 300 mapping to 255 and
-10 mapping to 0; a non-numeric one (coercing to NaN) yields NaN, which is
stored as is rather than defaulting to 0. -/
theorem claim_C2 :
    nextHapticOf none = JsNum.fin 0 ∧
    nextHapticOf (some (JsNum.fin 300)) = JsNum.fin 255 ∧
    nextHapticOf (some (JsNum.fin (-10))) = JsNum.fin 0 ∧
    (∀ q : ℚ, ∃ n : ℤ, nextHapticOf (some (JsNum.fin q)) = JsNum.fin (n : ℚ) ∧
      0 ≤ n ∧ n ≤ 255) ∧
    nextHapticOf (some JsNum.nan) = JsNum.nan := by
  refine ⟨?_, ?_, ?_, ?_, rfl⟩
  · rw [show nextHapticOf none = nextHapticOf (some (JsNum.fin 0)) from rfl,
      nextHapticOf_fin]
    norm_num
  · rw [nextHapticOf_fin]; norm_num
  · rw [nextHapticOf_fin]; norm_num
  · intro q
    refine ⟨max 0 (min 255 ⌊q + 1/2⌋), nextHapticOf_fin q, le_max_left _ _,
      max_le (by norm_num) (min_le_left _ _)⟩

/-! ### Claim C4: the whitespace-prompt / saturated-intensity / degenerate-box
scenario -/

/-- The scenario payload
`{"voice_prompt":" ", "haptic_intensity":999,
"detections":[{"label":"Box","box":[10,10,5,5]}]}`. -/
def scenarioPayload : VisionPayload :=
  { voice_prompt := some " "
    detections := some [{ label := some "Box"
                          box := some [JsNum.fin 10, JsNum.fin 10,
                                       JsNum.fin 5, JsNum.fin 5] }]
    haptic_intensity := some (JsNum.fin 999)
    ts := none }

theorem scenario_haptic : nextHapticOf (some (JsNum.fin 999)) = JsNum.fin 255 := by
  rw [nextHapticOf_fin]; norm_num

theorem scenario_box :
    normalizeBox (some [JsNum.fin 10, JsNum.fin 10, JsNum.fin 5, JsNum.fin 5]) =
      none := by
  simp only [normalizeBox, clamp_fin, jsRound]
  norm_num

/-- Claim C4: applying the scenario payload (delivered on the stream) to any
state yields voicePrompt "Path is clear", hapticIntensity 255, no detections
(the degenerate box is dropped), and exactly one appended event summarizing
the fallback prompt and the clamped intensity. -/
theorem claim_C4 (meta : LogMeta) (st : DashState) :
    onMessage meta st (WsMessage.valid scenarioPayload) =
      { st with
        voicePrompt := "Path is clear"
        hapticIntensity := JsNum.fin 255
        detections := []
        eventLog := addLog st.eventLog meta
          "vision stream: Path is clear | haptic=255" } := by
  show applyPayload meta st scenarioPayload "vision stream" = _
  rw [applyPayload]
  have hvoice : nextVoiceOf scenarioPayload.voice_prompt = "Path is clear" := by
    decide
  have hdet : nextDetectionsOf scenarioPayload.detections = [] := by
    simp [nextDetectionsOf, scenarioPayload, normalizeDetection, scenario_box]
  have hhap : nextHapticOf scenarioPayload.haptic_intensity = JsNum.fin 255 :=
    scenario_haptic
  rw [hvoice, hdet, hhap]
  rfl

/-! ### Claim C7: the bounded event history buffer -/

/-- The log entry built from one append request. -/
def mkEntry (req : LogMeta × String) : LogEntry :=
  { id := req.1.id, time := req.1.time, text := req.2 }

/-- A whole sequence of appends, oldest first. -/
def addLogsCap (cap : ℕ) (log : List LogEntry) :
    List (LogMeta × String) → List LogEntry
  | [] => log
  | req :: reqs => addLogsCap cap (addLogCap cap log req.1 req.2) reqs

theorem addLogCap_eq (cap : ℕ) (log : List LogEntry) (req : LogMeta × String) :
    addLogCap cap log req.1 req.2 = (mkEntry req :: log).take cap := rfl

theorem length_addLogCap (cap : ℕ) (log : List LogEntry) (meta : LogMeta)
    (text : String) : (addLogCap cap log meta text).length ≤ cap := by
  simp [addLogCap]

theorem take_append_take (cap : ℕ) (xs l : List LogEntry) :
    (xs ++ l.take cap).take cap = (xs ++ l).take cap := by
  rw [List.take_append_eq_append_take, List.take_append_eq_append_take,
    List.take_take, Nat.min_eq_left (Nat.sub_le cap xs.length)]

theorem addLogsCap_eq (cap : ℕ) (log : List LogEntry)
    (reqs : List (LogMeta × String)) (h : reqs ≠ []) :
    addLogsCap cap log reqs = ((reqs.map mkEntry).reverse ++ log).take cap := by
  induction reqs generalizing log with
  | nil => exact absurd rfl h
  | cons req reqs ih =>
    cases reqs with
    | nil => simp [addLogsCap, addLogCap_eq]
    | cons req2 reqs2 =>
      rw [addLogsCap, ih _ (by simp), addLogCap_eq]
      have hsplit : (List.map mkEntry (req2 :: reqs2)).reverse ++
          List.take cap (mkEntry req :: log) =
          ((List.map mkEntry (req2 :: reqs2)).reverse) ++
            List.take cap ([mkEntry req] ++ log) := by simp
      rw [hsplit, take_append_take]
      simp [List.append_assoc]

/-- Claim C7: for every sequence of appends the buffer never exceeds the
capacity (80 in the current page, 60 in the legacy page), and after
capacity + 1 appends the buffer holds exactly the capacity most recent
entries, newest first (the oldest entry of the sequence is evicted from the
tail). -/
theorem claim_C7 (log : List LogEntry) (meta : LogMeta) (text : String)
    (reqs : List (LogMeta × String))
    (h80 : reqs.length = MAX_LOG_ENTRIES + 1)
    (reqs60 : List (LogMeta × String))
    (h60 : reqs60.length = MAX_LOG_ENTRIES_LEGACY + 1) :
    (addLog log meta text).length ≤ MAX_LOG_ENTRIES ∧
    (addLogCap MAX_LOG_ENTRIES_LEGACY log meta text).length ≤ MAX_LOG_ENTRIES_LEGACY ∧
    addLogsCap MAX_LOG_ENTRIES log reqs =
      ((reqs.map mkEntry).reverse).take MAX_LOG_ENTRIES ∧
    addLogsCap MAX_LOG_ENTRIES_LEGACY log reqs60 =
      ((reqs60.map mkEntry).reverse).take MAX_LOG_ENTRIES_LEGACY := by
  have key : ∀ (cap : ℕ) (rs : List (LogMeta × String)),
      rs.length = cap + 1 →
      addLogsCap cap log rs = ((rs.map mkEntry).reverse).take cap := by
    intro cap rs hrs
    have hne : rs ≠ [] := by
      intro hnil; rw [hnil] at hrs; simp at hrs
    rw [addLogsCap_eq cap log rs hne, List.take_append_eq_append_take]
    have hlen : ((rs.map mkEntry).reverse).length = cap + 1 := by
      simp [hrs]
    rw [hlen]
    simp
  exact ⟨length_addLogCap _ _ _ _, length_addLogCap _ _ _ _,
    key MAX_LOG_ENTRIES reqs h80, key MAX_LOG_ENTRIES_LEGACY reqs60 h60⟩

/-- Concrete instantiation of claim C7: 81 (and 61) appends onto the empty
buffer. -/
theorem claim_C7_witness :
    ((List.range 81).map (fun i : ℕ => ((⟨(i : ℤ), ""⟩ : LogMeta), "e"))).length =
      MAX_LOG_ENTRIES + 1 ∧
    ((List.range 61).map (fun i : ℕ => ((⟨(i : ℤ), ""⟩ : LogMeta), "e"))).length =
      MAX_LOG_ENTRIES_LEGACY + 1 ∧
    (addLog [] ⟨0, ""⟩ "e").length ≤ MAX_LOG_ENTRIES ∧
    addLogsCap MAX_LOG_ENTRIES []
        ((List.range 81).map (fun i : ℕ => ((⟨(i : ℤ), ""⟩ : LogMeta), "e"))) =
      ((((List.range 81).map (fun i : ℕ => ((⟨(i : ℤ), ""⟩ : LogMeta), "e"))).map
        mkEntry).reverse).take MAX_LOG_ENTRIES := by
  have h81 : ((List.range 81).map
      (fun i : ℕ => ((⟨(i : ℤ), ""⟩ : LogMeta), "e"))).length = MAX_LOG_ENTRIES + 1 := by
    rw [List.length_map, List.length_range]
    rfl
  have h61 : ((List.range 61).map
      (fun i : ℕ => ((⟨(i : ℤ), ""⟩ : LogMeta), "e"))).length =
        MAX_LOG_ENTRIES_LEGACY + 1 := by
    rw [List.length_map, List.length_range]
    rfl
  have main := claim_C7 [] ⟨0, ""⟩ "e" _ h81 _ h61
  exact ⟨h81, h61, main.1, main.2.2.1⟩

/-! ### Claim C6: reconnect scheduling and teardown -/

theorem sessionStep_teardown {s : SessionState} (h : s.teardown = true)
    (e : SessionEvent) :
    (sessionStep s e).1.teardown = true ∧ (sessionStep s e).2 = 0 := by
  cases e with
  | closeEv meta => simp [sessionStep, onClose, h]
  | openEv meta => simp [sessionStep, onOpen, h]
  | reconnectFire =>
    cases htimer : s.reconnectTimer with
    | none => simp [sessionStep, htimer, h]
    | some d => simp [sessionStep, htimer, connectStep, h]
  | teardownReq => simp [sessionStep, teardownStep]

theorem sessionRun_teardown {s : SessionState} (h : s.teardown = true) :
    ∀ evs : List SessionEvent, (sessionRun s evs).2 = 0 := by
  intro evs
  induction evs generalizing s with
  | nil => rfl
  | cons e evs ih =>
    have step := sessionStep_teardown h e
    rw [sessionRun]
    rw [step.2, ih step.1]

/-- Claim C6: a transport close while teardown has not been requested
schedules exactly one reconnect attempt, with the fixed 1200 ms delay, and
makes no immediate connection attempt; once teardown has been requested, no
event sequence — including late close events and timer fires — ever produces
a connection attempt. -/
theorem claim_C6 (meta : LogMeta) (s s2 : SessionState)
    (evs : List SessionEvent)
    (hlive : s.teardown = false) (hdown : s2.teardown = true) :
    (sessionStep s (SessionEvent.closeEv meta)).1.reconnectTimer = some 1200 ∧
    (sessionStep s (SessionEvent.closeEv meta)).2 = 0 ∧
    (sessionRun s2 evs).2 = 0 := by
  refine ⟨?_, rfl, sessionRun_teardown hdown evs⟩
  simp [sessionStep, onClose, hlive]

/-- Concrete instantiation of claim C6: a close on a live session schedules
the 1200 ms reconnect; after teardown, a late close followed by a timer fire
attempts no connection. -/
theorem claim_C6_witness :
    (false = true → False) ∧
    (sessionStep ⟨false, true, none, true, []⟩
      (SessionEvent.closeEv ⟨0, ""⟩)).1.reconnectTimer = some 1200 ∧
    (sessionRun ⟨true, true, none, false, []⟩
      [SessionEvent.closeEv ⟨0, ""⟩, SessionEvent.reconnectFire]).2 = 0 :=
  have main := claim_C6 ⟨0, ""⟩ ⟨false, true, none, true, []⟩
    ⟨true, true, none, false, []⟩
    [SessionEvent.closeEv ⟨0, ""⟩, SessionEvent.reconnectFire] rfl rfl
  ⟨fun h => by simp at h, main.1, main.2.2⟩

/-! ### Claim C3: detection-box normalization -/

/-- Inversion for normalizeBox: it accepts exactly the present 4-entry boxes
whose rounded-and-clamped coordinates are all numbers and satisfy the strict
ordering, and then returns those coordinates. -/
theorem normalizeBox_eq_some_iff {raw : Option (List JsNum)}
    {ymin xmin ymax xmax : ℚ} :
    normalizeBox raw = some (ymin, xmin, ymax, xmax) ↔
      ∃ v0 v1 v2 v3, raw = some [v0, v1, v2, v3] ∧
        clamp (jsRound v0) 0 1000 = JsNum.fin ymin ∧
        clamp (jsRound v1) 0 1000 = JsNum.fin xmin ∧
        clamp (jsRound v2) 0 1000 = JsNum.fin ymax ∧
        clamp (jsRound v3) 0 1000 = JsNum.fin xmax ∧
        ymin < ymax ∧ xmin < xmax := by
  constructor
  · intro h
    unfold normalizeBox at h
    split at h
    · rename_i v0 v1 v2 v3
      refine ⟨v0, v1, v2, v3, rfl, ?_⟩
      split at h
      · rename_i a b c d hc0 hc1 hc2 hc3
        split at h
        · exact absurd h (by simp)
        · rename_i hdeg
          push_neg at hdeg
          obtain ⟨e1, e2, e3, e4⟩ : a = ymin ∧ b = xmin ∧ c = ymax ∧ d = xmax := by
            simpa using h
          subst e1; subst e2; subst e3; subst e4
          exact ⟨hc0, hc1, hc2, hc3, hdeg.1, hdeg.2⟩
      · exact absurd h (by simp)
    · exact absurd h (by simp)
  · rintro ⟨v0, v1, v2, v3, rfl, hc0, hc1, hc2, hc3, h02, h13⟩
    have hdeg : ¬(ymax ≤ ymin ∨ xmax ≤ xmin) := by
      push_neg
      exact ⟨h02, h13⟩
    obtain ⟨q0, rfl⟩ : ∃ q, v0 = JsNum.fin q := by
      cases v0 with
      | fin q => exact ⟨q, rfl⟩
      | nan => exact absurd hc0 (by simp [jsRound, clamp_nan])
    obtain ⟨q1, rfl⟩ : ∃ q, v1 = JsNum.fin q := by
      cases v1 with
      | fin q => exact ⟨q, rfl⟩
      | nan => exact absurd hc1 (by simp [jsRound, clamp_nan])
    obtain ⟨q2, rfl⟩ : ∃ q, v2 = JsNum.fin q := by
      cases v2 with
      | fin q => exact ⟨q, rfl⟩
      | nan => exact absurd hc2 (by simp [jsRound, clamp_nan])
    obtain ⟨q3, rfl⟩ : ∃ q, v3 = JsNum.fin q := by
      cases v3 with
      | fin q => exact ⟨q, rfl⟩
      | nan => exact absurd hc3 (by simp [jsRound, clamp_nan])
    simp only [jsRound, clamp_fin, JsNum.fin.injEq] at hc0 hc1 hc2 hc3
    simp only [normalizeBox, jsRound, clamp_fin]
    rw [hc0, hc1, hc2, hc3, if_neg hdeg]

/-- Bounds and integrality of a coordinate that survived round-and-clamp. -/
theorem coord_int_bounds {v : JsNum} {c : ℚ}
    (h : clamp (jsRound v) 0 1000 = JsNum.fin c) :
    0 ≤ c ∧ c ≤ 1000 ∧ ∃ a : ℤ, c = (a : ℚ) := by
  cases v with
  | nan => exact absurd h (by simp [jsRound, clamp_nan])
  | fin q =>
    have hr : jsRound (JsNum.fin q) = JsNum.fin ((⌊q + 1/2⌋ : ℤ) : ℚ) := rfl
    rw [hr, clamp_fin] at h
    cases h
    refine ⟨le_max_left _ _, max_le (by norm_num) (min_le_left _ _), ?_⟩
    refine ⟨max 0 (min 1000 ⌊q + 1/2⌋), ?_⟩
    push_cast
    rfl

/-- A clamped coordinate is a number exactly when the raw entry coerced to a
number. -/
theorem coord_fin_iff {v : JsNum} :
    (∃ c : ℚ, clamp (jsRound v) 0 1000 = JsNum.fin c) ↔ v ≠ JsNum.nan := by
  cases v with
  | nan => simp [jsRound, clamp_nan]
  | fin q =>
    refine ⟨fun _ => by simp, fun _ => ?_⟩
    refine ⟨max 0 (min 1000 ((⌊q + 1/2⌋ : ℤ) : ℚ)), ?_⟩
    rw [show jsRound (JsNum.fin q) = JsNum.fin ((⌊q + 1/2⌋ : ℤ) : ℚ) from rfl,
      clamp_fin]

/-- Claim C3: every coordinate of a kept box is an integer in [0, 1000]; an
element is kept iff its box is present with exactly 4 entries, every entry
coerces to a number, and the rounded-and-clamped coordinates satisfy
ymax > ymin and xmax > xmin; and elements are processed independently in
input order (splitting the input around any element splits the output around
that element, with no reordering and no deduplication). -/
theorem claim_C3 :
    (∀ (raw : Option (List JsNum)) (ymin xmin ymax xmax : ℚ),
        normalizeBox raw = some (ymin, xmin, ymax, xmax) →
        (0 ≤ ymin ∧ ymin ≤ 1000 ∧ ∃ a : ℤ, ymin = (a : ℚ)) ∧
        (0 ≤ xmin ∧ xmin ≤ 1000 ∧ ∃ a : ℤ, xmin = (a : ℚ)) ∧
        (0 ≤ ymax ∧ ymax ≤ 1000 ∧ ∃ a : ℤ, ymax = (a : ℚ)) ∧
        (0 ≤ xmax ∧ xmax ≤ 1000 ∧ ∃ a : ℤ, xmax = (a : ℚ)) ∧
        ymin < ymax ∧ xmin < xmax) ∧
    (∀ raw : Option (List JsNum),
        (normalizeBox raw).isSome ↔
          ∃ v0 v1 v2 v3 c0 c1 c2 c3,
            raw = some [v0, v1, v2, v3] ∧
            v0 ≠ JsNum.nan ∧ v1 ≠ JsNum.nan ∧
            v2 ≠ JsNum.nan ∧ v3 ≠ JsNum.nan ∧
            clamp (jsRound v0) 0 1000 = JsNum.fin c0 ∧
            clamp (jsRound v1) 0 1000 = JsNum.fin c1 ∧
            clamp (jsRound v2) 0 1000 = JsNum.fin c2 ∧
            clamp (jsRound v3) 0 1000 = JsNum.fin c3 ∧
            c0 < c2 ∧ c1 < c3) ∧
    (∀ (xs ys : List RawDetection) (d : RawDetection),
        nextDetectionsOf (some (xs ++ d :: ys)) =
          nextDetectionsOf (some xs) ++ (normalizeDetection d).toList ++
            nextDetectionsOf (some ys)) := by
  refine ⟨?_, ?_, ?_⟩
  · intro raw ymin xmin ymax xmax h
    obtain ⟨v0, v1, v2, v3, -, hc0, hc1, hc2, hc3, h02, h13⟩ :=
      normalizeBox_eq_some_iff.mp h
    exact ⟨coord_int_bounds hc0, coord_int_bounds hc1, coord_int_bounds hc2,
      coord_int_bounds hc3, h02, h13⟩
  · intro raw
    constructor
    · intro h
      rw [Option.isSome_iff_exists] at h
      obtain ⟨⟨ymin, xmin, ymax, xmax⟩, hbox⟩ := h
      obtain ⟨v0, v1, v2, v3, hraw, hc0, hc1, hc2, hc3, h02, h13⟩ :=
        normalizeBox_eq_some_iff.mp hbox
      exact ⟨v0, v1, v2, v3, ymin, xmin, ymax, xmax, hraw,
        coord_fin_iff.mp ⟨_, hc0⟩, coord_fin_iff.mp ⟨_, hc1⟩,
        coord_fin_iff.mp ⟨_, hc2⟩, coord_fin_iff.mp ⟨_, hc3⟩,
        hc0, hc1, hc2, hc3, h02, h13⟩
    · rintro ⟨v0, v1, v2, v3, c0, c1, c2, c3, hraw, -, -, -, -,
        hc0, hc1, hc2, hc3, h02, h13⟩
      have hsome : normalizeBox raw = some (c0, c1, c2, c3) :=
        normalizeBox_eq_some_iff.mpr
          ⟨v0, v1, v2, v3, hraw, hc0, hc1, hc2, hc3, h02, h13⟩
      rw [hsome]
      rfl
  · intro xs ys d
    simp only [nextDetectionsOf, Option.getD, List.filterMap_append]
    rw [List.filterMap_cons]
    cases hd : normalizeDetection d <;> simp [hd]

/-- Concrete instantiation of claim C3: the box [10, 20, 30, 40] is kept with
its coordinates in [0, 1000]. -/
theorem claim_C3_witness :
    normalizeBox (some [JsNum.fin 10, JsNum.fin 20, JsNum.fin 30, JsNum.fin 40]) =
      some (10, 20, 30, 40) ∧
    ((0 ≤ (10 : ℚ) ∧ (10 : ℚ) ≤ 1000 ∧ ∃ a : ℤ, (10 : ℚ) = (a : ℚ)) ∧
     (0 ≤ (20 : ℚ) ∧ (20 : ℚ) ≤ 1000 ∧ ∃ a : ℤ, (20 : ℚ) = (a : ℚ)) ∧
     (0 ≤ (30 : ℚ) ∧ (30 : ℚ) ≤ 1000 ∧ ∃ a : ℤ, (30 : ℚ) = (a : ℚ)) ∧
     (0 ≤ (40 : ℚ) ∧ (40 : ℚ) ≤ 1000 ∧ ∃ a : ℤ, (40 : ℚ) = (a : ℚ)) ∧
     (10 : ℚ) < 30 ∧ (20 : ℚ) < 40) :=
  have hbox : normalizeBox
      (some [JsNum.fin 10, JsNum.fin 20, JsNum.fin 30, JsNum.fin 40]) =
        some (10, 20, 30, 40) := by
    simp only [normalizeBox, jsRound, clamp_fin]
    norm_num
  ⟨hbox, claim_C3.1 _ 10 20 30 40 hbox⟩

/-! ### Trim idempotence -/

theorem dropWhile_dropWhile_self (p : Char → Bool) (l : List Char) :
    List.dropWhile p (List.dropWhile p l) = List.dropWhile p l := by
  induction l with
  | nil => rfl
  | cons x xs ih =>
    by_cases h : p x
    · simp [List.dropWhile_cons, h, ih]
    · simp [List.dropWhile_cons, h]

theorem length_dropWhile_le (p : Char → Bool) (l : List Char) :
    (l.dropWhile p).length ≤ l.length := by
  induction l with
  | nil => simp
  | cons x xs ih =>
    by_cases h : p x
    · rw [List.dropWhile_cons, if_pos h]
      exact ih.trans (by simp)
    · rw [List.dropWhile_cons, if_neg h]

theorem dropWhile_of_append_fixed {p : Char → Bool} {r t : List Char}
    (h : List.dropWhile p (r ++ t) = r ++ t) : List.dropWhile p r = r := by
  cases r with
  | nil => rfl
  | cons x r2 =>
    rw [List.cons_append, List.dropWhile_cons] at h
    by_cases hx : p x
    · exfalso
      rw [if_pos hx] at h
      have hlen := length_dropWhile_le p (r2 ++ t)
      rw [h] at hlen
      simp at hlen
    · rw [List.dropWhile_cons, if_neg hx]

theorem trimChars_idem (l : List Char) : trimChars (trimChars l) = trimChars l := by
  set w := isJsWhitespace
  set m := l.dropWhile w with hm
  have hmfix : m.dropWhile w = m := dropWhile_dropWhile_self w l
  set r := (m.reverse.dropWhile w).reverse with hr
  have hback : r.reverse.dropWhile w = r.reverse := by
    rw [hr, List.reverse_reverse]
    exact dropWhile_dropWhile_self w m.reverse
  have hsplit : m = r ++ (m.reverse.takeWhile w).reverse := by
    have := List.takeWhile_append_dropWhile (p := w) (l := m.reverse)
    calc m = m.reverse.reverse := (List.reverse_reverse m).symm
    _ = (m.reverse.takeWhile w ++ m.reverse.dropWhile w).reverse := by rw [this]
    _ = (m.reverse.dropWhile w).reverse ++ (m.reverse.takeWhile w).reverse := by
          rw [List.reverse_append]
    _ = r ++ (m.reverse.takeWhile w).reverse := by rw [hr]
  have hfront : r.dropWhile w = r := by
    apply dropWhile_of_append_fixed (t := (m.reverse.takeWhile w).reverse)
    rw [← hsplit]
    exact hmfix
  show ((r.dropWhile w).reverse.dropWhile w).reverse = r
  rw [hfront, hback, List.reverse_reverse]

theorem jsTrim_idem (s : String) : jsTrim (jsTrim s) = jsTrim s := by
  show String.mk (trimChars (String.mk (trimChars s.data)).data) = _
  rw [show (String.mk (trimChars s.data)).data = trimChars s.data from rfl,
    trimChars_idem]
  rfl

/-! ### Claim C9: the stored voice prompt is never blank -/

/-- The prompt computed by the normalizer is a trim fixed point and
non-empty. -/
theorem nextVoiceOf_fixed (vp : Option String) :
    jsTrim (nextVoiceOf vp) = nextVoiceOf vp ∧ nextVoiceOf vp ≠ "" := by
  cases vp with
  | none => exact ⟨by decide, by decide⟩
  | some s =>
    rw [nextVoiceOf]
    by_cases h : jsTrim s = ""
    · rw [if_pos h]
      exact ⟨by decide, by decide⟩
    · rw [if_neg h]
      exact ⟨jsTrim_idem s, h⟩

/-- Inductive invariant: every reachable state stores a voice prompt that is
its own trim and is non-empty. -/
theorem reachable_voicePrompt_fixed {st : DashState} (h : Reachable st) :
    jsTrim st.voicePrompt = st.voicePrompt ∧ st.voicePrompt ≠ "" := by
  induction h with
  | init => exact ⟨by decide, by decide⟩
  | msg meta m hr ih =>
    cases m with
    | valid payload => exact nextVoiceOf_fixed payload.voice_prompt
    | malformed => exact ih
  | wsOpen meta hr ih => exact ih
  | wsClose meta hr ih => exact ih
  | analyze meta outcome hr ih =>
    cases outcome with
    | ok payload => exact nextVoiceOf_fixed payload.voice_prompt
    | notOk status => exact ih
    | thrown e => exact ih
  | haptic meta intensity outcome hr ih =>
    cases outcome with
    | ok message => exact ih
    | notOk status => exact ih
    | thrown e => exact ih
  | speak meta outcome hr ih =>
    rename_i st2
    rw [handleSpeakPrompt]
    by_cases hp : jsTrim st2.voicePrompt = ""
    · rw [if_pos hp]
      exact ih
    · rw [if_neg hp]
      cases outcome with
      | noContent => exact ih
      | played => exact ih
      | notOk status => exact ih
      | thrown e => exact ih

/-- Claim C9: in every reachable state the voice prompt is non-empty after
trimming — initially it is "Waiting for analysis" and every payload
application stores either a non-empty trimmed prompt or the fallback
"Path is clear" — so the speak action's empty-prompt no-op guard never fires
under the system's own updates: a speak run always takes the lock and issues
the request. -/
theorem claim_C9 (st : DashState) (h : Reachable st) :
    jsTrim st.voicePrompt ≠ "" ∧
    ∀ (meta : LogMeta) (outcome : SpeakOutcome),
      (handleSpeakPrompt meta st outcome).2 = true := by
  obtain ⟨hfix, hne⟩ := reachable_voicePrompt_fixed h
  have hkey : jsTrim st.voicePrompt ≠ "" := by
    rw [hfix]
    exact hne
  refine ⟨hkey, fun meta outcome => ?_⟩
  rw [handleSpeakPrompt, if_neg hkey]

/-- Concrete instantiation of claim C9 at a reachable state: the state after
a scenario payload arrives on the stream at the initial state. -/
theorem claim_C9_witness :
    jsTrim (onMessage ⟨0, ""⟩ initialState
      (WsMessage.valid scenarioPayload)).voicePrompt ≠ "" ∧
    (handleSpeakPrompt ⟨1, ""⟩
      (onMessage ⟨0, ""⟩ initialState (WsMessage.valid scenarioPayload))
      SpeakOutcome.played).2 = true :=
  have hreach : Reachable (onMessage ⟨0, ""⟩ initialState
      (WsMessage.valid scenarioPayload)) :=
    Reachable.msg ⟨0, ""⟩ (WsMessage.valid scenarioPayload) Reachable.init
  have main := claim_C9 _ hreach
  ⟨main.1, main.2 ⟨1, ""⟩ SpeakOutcome.played⟩

end EchoSight
